import Mathlib

/-!
# Verification of the prestrafe-gsi tenant store

Shallow embedding of the `gsistore`/`smstore` packages (and the `model`
package they share) of the prestrafe-gsi repository, together with the
behaviour of the third-party `go-cache` TTL cache they are built on.

Modelling conventions:
* Go pointers `*T` become `Option T` (`none` is the `nil` pointer).
* The cache's `interface{}` view of a stored value becomes a further
  `Option` layer (`none` is a cache miss / nil interface).
* Go maps become association lists `List (String × _)`; insertion keeps
  the key unique by filtering out the old binding.
* Wall-clock time (`time.Now().UnixNano()`) is an explicit `Int`
  parameter `now`; `time.Duration` is an `Int` of the same unit.
* A Go channel becomes an explicit buffer (a list of queued events,
  oldest first), its capacity, and a closed flag; `close(ch)` sets the
  flag.  Operations that close channels return the closed channel values
  so that the effect of `close` stays observable in a functional model.
* The store is one generic development parameterised by the pointed-to
  value type `β` (`model.GameState` for `gsistore`,
  `model.FullPlayerInfo` for `smstore`): the two Go packages are
  line-for-line duplicates up to that type.
-/

/-! ## The `model` package -/

/-- Go struct `model.AuthState`. -/
structure AuthState where
  token : String
deriving DecidableEq, Repr

/-- Go struct `model.ProviderState`. -/
structure ProviderState where
  name : String
  appId : Int
  version : Int
  steamId : Int
  timestamp : Int
deriving DecidableEq, Repr

/-- Go struct `model.TeamState`; `Timeouts *int` is an optional integer. -/
structure TeamState where
  timeouts : Option Int
deriving DecidableEq, Repr

/-- Go struct `model.MapState`. -/
structure MapState where
  name : String
  teamCT : Option TeamState
  teamT : Option TeamState
deriving DecidableEq, Repr

/-- Go struct `model.MatchStats`. -/
structure MatchStats where
  kills : Int
  assists : Int
  deaths : Int
  mvps : Int
  score : Int
deriving DecidableEq, Repr

/-- Go struct `model.PlayerState`. -/
structure PlayerState where
  steamId : Int
  clan : String
  name : String
  matchStats : Option MatchStats
deriving DecidableEq, Repr

/-- Go struct `model.GameState`: recursive through the `PreviousState *GameState`
field, so it is an inductive rather than a structure. -/
inductive GameState where
  | mk (auth : Option AuthState) (mapState : Option MapState)
      (player : Option PlayerState) (provider : Option ProviderState)
      (previousState : Option GameState)
deriving Repr

/-- Structural (deep) equality on `GameState`, the behaviour of
`reflect.DeepEqual` on two non-nil `*model.GameState` values. -/
def GameState.deepEqual : GameState → GameState → Bool
  | .mk a1 m1 p1 pr1 prev1, .mk a2 m2 p2 pr2 prev2 =>
    (a1 == a2) && (m1 == m2) && (p1 == p2) && (pr1 == pr2) &&
      match prev1, prev2 with
      | none, none => true
      | some g1, some g2 => GameState.deepEqual g1 g2
      | _, _ => false

instance : BEq GameState := ⟨GameState.deepEqual⟩

/-- Go struct `model.KZData`. -/
structure KZData where
  glob : Bool
  course : Int
  time : Float
  checkpoints : Int
  teleports : Int
deriving BEq, Repr

/-- Go struct `model.ServerInfo`. -/
structure ServerInfo where
  timeStamp : Int
  serverName : String
  mapName : String
  timeoutsCTPrev : Int
  timeoutsTPrev : Int
  timeoutsCT : Int
  timeoutsT : Int
  glob : Int
deriving BEq, Repr

/-- Go struct `model.PlayerInfo`. -/
structure PlayerInfo where
  authKey : String
  steamId : Int
  clan : String
  name : String
  timeInServer : Float
  kzData : KZData
deriving BEq, Repr

/-- Go struct `model.FullPlayerInfo`, the stored merged record. -/
structure FullPlayerInfo where
  timeStamp : Int
  authKey : String
  timeoutsCTPrev : Int
  timeoutsTPrev : Int
  timeoutsCT : Int
  timeoutsT : Int
  serverName : String
  mapName : String
  serverGlobal : Int
  steamId : Int
  clan : String
  name : String
  timeInServer : Float
  kzData : KZData
deriving BEq, Repr

/-- Function `model.New`: builds the merged `FullPlayerInfo` from a server
snapshot and a player snapshot, positionally as in the Go source. -/
def modelNew (sInfo : ServerInfo) (pInfo : PlayerInfo) : FullPlayerInfo :=
  { timeStamp := sInfo.timeStamp
    authKey := pInfo.authKey
    timeoutsCTPrev := sInfo.timeoutsCTPrev
    timeoutsTPrev := sInfo.timeoutsTPrev
    timeoutsCT := sInfo.timeoutsCT
    timeoutsT := sInfo.timeoutsT
    serverName := sInfo.serverName
    mapName := sInfo.mapName
    serverGlobal := sInfo.glob
    steamId := pInfo.steamId
    clan := pInfo.clan
    name := pInfo.name
    timeInServer := pInfo.timeInServer
    kzData := pInfo.kzData }

/-! ## Association-list helpers (Go map operations) -/

/-- Map lookup `v, ok := m[k]`. -/
def alookup (l : List (String × α)) (k : String) : Option α :=
  match l with
  | [] => none
  | p :: t => if p.1 = k then some p.2 else alookup t k

/-- Map delete `delete(m, k)`. -/
def adel (l : List (String × α)) (k : String) : List (String × α) :=
  match l with
  | [] => []
  | p :: t => if p.1 = k then adel t k else p :: adel t k

/-- Map write `m[k] = v`: the new binding shadows and drops any old one,
so keys stay unique. -/
def aset (l : List (String × α)) (k : String) (v : α) : List (String × α) :=
  (k, v) :: adel l k

/-! ## The go-cache item and the store state -/

/-- One entry of the `go-cache` item map.  `object` is the stored
`interface{}` holding a `*β` value; `expiration` is a UnixNano instant,
with `0` meaning "never expires" (as in `go-cache`). -/
structure Item (β : Type) where
  object : Option β
  expiration : Int
deriving Repr

/-- A buffered Go channel of `*β` events: its capacity (from
`make(chan *β, n)`), the queued events oldest first, and whether
`close` has been called on it. -/
structure Channel (β : Type) where
  capacity : Nat
  buffer : List (Option β)
  closed : Bool
deriving Repr

/-- Go struct `channelContainer`: the channel together with its client count. -/
structure ChannelContainer (β : Type) where
  channel : Channel β
  clients : Int
deriving Repr

/-- The `store` struct: the channel registry, the internal `go-cache`
item map, and the cache configuration fixed at `cache.New(ttl, ttl*10)`
(default expiration and janitor sweep interval). -/
structure Store (β : Type) where
  channels : List (String × ChannelContainer β)
  cacheItems : List (String × Item β)
  ttl : Int
  cleanupInterval : Int
deriving Repr

/-- Constant `channelBufferSize` of the store packages. -/
def channelBufferSize : Nat := 10

/-- Constructor `newStore(ttl)`: empty registry, empty cache, and
`cache.New(ttl, ttl*10)`; the cache's `OnEvicted` hook is installed
before the store is handed out, which the eviction operations below
reflect by calling `pushUpdate` directly. -/
def newStore (β : Type) (ttl : Int) : Store β :=
  { channels := [], cacheItems := [], ttl := ttl, cleanupInterval := ttl * 10 }

/-! ## go-cache primitives, as used through the store -/

/-- Behaviour of `go-cache`'s `Get`: a hit only if the item exists and, when it has a
positive expiration instant, `now` is not past it.  Returns the stored
`interface{}` (`none` is the nil interface of a miss). -/
def cacheGetRaw (s : Store β) (now : Int) (k : String) : Option (Option β) :=
  match alookup s.cacheItems k with
  | none => none
  | some item =>
    if 0 < item.expiration ∧ item.expiration < now then none
    else some item.object

/-- Behaviour of `go-cache`'s `Set` with `DefaultExpiration`: the expiration instant
is `now + ttl` when `ttl > 0`, otherwise `0` (never expires). -/
def cacheSet (s : Store β) (now : Int) (k : String) (v : Option β) : Store β :=
  { s with
    cacheItems :=
      aset s.cacheItems k
        { object := v, expiration := if 0 < s.ttl then now + s.ttl else 0 } }

/-- Whether a cache item is past its expiration at `now` (the test the
janitor's `DeleteExpired` applies). -/
def itemExpired (it : Item β) (now : Int) : Bool :=
  decide (0 < it.expiration) && decide (it.expiration < now)

/-- Behaviour of `reflect.DeepEqual` on two `*β` pointers: both nil, or both non-nil
with structurally equal referents. -/
def deepEqualPtr [BEq β] : Option β → Option β → Bool
  | none, none => true
  | some a, some b => a == b
  | _, _ => false

/-- Behaviour of `reflect.DeepEqual(previous, new)` as called in `Put`: `previous` is
the `interface{}` that `internalCache.Get` returned (nil on a miss) and
`new` is the `*β` argument; a nil interface is never equal to a pointer
value. -/
def goDeepEqual [BEq β] : Option (Option β) → Option β → Bool
  | none, _ => false
  | some p, v => deepEqualPtr p v

/-! ## The store operations (`gsistore`, generic in the value type) -/

/-- Method `store.Get`: returns the cached `*β` and a presence flag; the
returned pointer is nil on a miss. -/
def storeGet (s : Store β) (now : Int) (k : String) : Option β × Bool :=
  match cacheGetRaw s now k with
  | some v => (v, true)
  | none => (none, false)

/-- Method `store.pushUpdate`: if a container exists for the key, append the
event to its channel buffer; otherwise do nothing. -/
def pushUpdate (s : Store β) (k : String) (g : Option β) : Store β :=
  match alookup s.channels k with
  | none => s
  | some c =>
    { s with
      channels :=
        aset s.channels k
          { c with channel := { c.channel with buffer := c.channel.buffer ++ [g] } } }

/-- Method `store.Put`: read the previous value, overwrite the cache entry, and
push the new value iff `reflect.DeepEqual` says it differs from the
previous one. -/
def storePut [BEq β] (s : Store β) (now : Int) (k : String) (g : Option β) :
    Store β :=
  let previous := cacheGetRaw s now k
  let s1 := cacheSet s now k g
  if goDeepEqual previous g then s1 else pushUpdate s1 k g

/-- Method `store.Remove`, i.e. `go-cache`'s `Delete`: the entry is deleted
and, because the `OnEvicted` hook is installed, a present entry fires
`pushUpdate(k, nil)` exactly as a timeout eviction does. -/
def storeRemove (s : Store β) (k : String) : Store β :=
  match alookup s.cacheItems k with
  | some _ => pushUpdate { s with cacheItems := adel s.cacheItems k } k none
  | none => { s with cacheItems := adel s.cacheItems k }

/-- Behaviour of `go-cache`'s `DeleteExpired`, run by the janitor every
`cleanupInterval`: drop every expired item, then fire the `OnEvicted`
hook — `pushUpdate(k, nil)` — once per evicted key. -/
def deleteExpired (s : Store β) (now : Int) : Store β :=
  let expired := s.cacheItems.filter (fun p => itemExpired p.2 now)
  let s1 :=
    { s with cacheItems := s.cacheItems.filter (fun p => !itemExpired p.2 now) }
  expired.foldl (fun acc p => pushUpdate acc p.1 none) s1

/-- Method `store.GetChannel`: when no container exists, create one whose
buffered channel has capacity `channelBufferSize` and already holds the
current `Get` result (nil when absent) as its first event, with zero
clients; then increment the container's client count. -/
def storeGetChannel (s : Store β) (now : Int) (k : String) : Store β :=
  let s0 :=
    match alookup s.channels k with
    | some _ => s
    | none =>
      let g := (storeGet s now k).1
      { s with
        channels :=
          aset s.channels k
            { channel := { capacity := channelBufferSize, buffer := [g], closed := false }
              clients := 0 } }
  match alookup s0.channels k with
  | some c => { s0 with channels := aset s0.channels k { c with clients := c.clients + 1 } }
  | none => s0

/-- Method `store.ReleaseChannel`: decrement the count; when it drops below
one, remove the container and close its channel.  The closed channel is
returned so closing stays observable. -/
def storeReleaseChannel (s : Store β) (k : String) :
    Store β × Option (Channel β) :=
  match alookup s.channels k with
  | none => (s, none)
  | some c =>
    let c' : ChannelContainer β := { c with clients := c.clients - 1 }
    if c'.clients < 1 then
      ({ s with channels := adel s.channels k }, some { c.channel with closed := true })
    else
      ({ s with channels := aset s.channels k c' }, none)

/-- Method `store.Close`: remove every container and close every channel,
whatever its client count.  The closed channels are returned. -/
def storeClose (s : Store β) : Store β × List (String × Channel β) :=
  ({ s with channels := [] },
   s.channels.map (fun p => (p.1, { p.2.channel with closed := true })))

/-- Receiving from a channel: a buffered event yields `(event, true)`;
an empty closed channel yields `(nil, false)` (end-of-stream); an empty
open channel blocks (`none`). -/
def Channel.recv (c : Channel β) : Option ((Option β × Bool) × Channel β) :=
  match c.buffer with
  | g :: rest => some ((g, true), { c with buffer := rest })
  | [] => if c.closed then some ((none, false), c) else none

/-- Method `smstore.Put(serverInfo, playerInfo)`: merge the two snapshots with
`model.New`, store the result under the player's auth key, and push it
iff it deep-differs from the previous stored value. -/
def smPut (s : Store FullPlayerInfo) (now : Int) (sInfo : ServerInfo)
    (pInfo : PlayerInfo) : Store FullPlayerInfo :=
  let previous := cacheGetRaw s now pInfo.authKey
  let fullPlayerInfo := modelNew sInfo pInfo
  let s1 := cacheSet s now pInfo.authKey (some fullPlayerInfo)
  if goDeepEqual previous (some fullPlayerInfo) then s1
  else pushUpdate s1 pInfo.authKey (some fullPlayerInfo)

/-- The invariant of the channel registry: every container that exists
has at least one client. -/
def goodStore (s : Store β) : Prop :=
  ∀ k c, alookup s.channels k = some c → 0 < c.clients

/-- Number of cache entries stored under a key. -/
def keyCount (l : List (String × α)) (k : String) : Nat :=
  l.countP (fun p => decide (p.1 = k))

/-! ## Concrete sample data (used by the witness theorems) -/

/-- A concrete game state. -/
def sampleGameState : GameState := .mk none none none none none

/-- A second, structurally different game state. -/
def sampleGameState2 : GameState :=
  .mk (some { token := "t" }) none none none (some sampleGameState)

/-- A fresh store with a positive TTL. -/
def sampleStore : Store GameState := newStore GameState 100

/-- A concrete server snapshot. -/
def sampleServerInfo : ServerInfo :=
  { timeStamp := 7, serverName := "srv", mapName := "kz_map"
    timeoutsCTPrev := 1, timeoutsTPrev := 2, timeoutsCT := 3, timeoutsT := 4
    glob := 5 }

/-- A concrete player snapshot. -/
def samplePlayerInfo : PlayerInfo :=
  { authKey := "auth", steamId := 76561198000000000, clan := "c", name := "n"
    timeInServer := 1.5
    kzData :=
      { glob := true, course := 0, time := 12.25, checkpoints := 3, teleports := 1 } }

/-- A fresh smstore with a positive TTL. -/
def sampleSmStore : Store FullPlayerInfo := newStore FullPlayerInfo 100

/-! ## Helper lemmas -/

theorem GameState.deepEqual_rfl : ∀ g : GameState, GameState.deepEqual g g = true
  | .mk a m p pr none => by simp [GameState.deepEqual]
  | .mk a m p pr (some g) => by
    have ih := GameState.deepEqual_rfl g
    simp [GameState.deepEqual, ih]

theorem GameState.beq_self (g : GameState) : (g == g) = true :=
  GameState.deepEqual_rfl g

theorem deepEqualPtr_gs_rfl : ∀ g : Option GameState, deepEqualPtr g g = true
  | none => rfl
  | some a => GameState.beq_self a

theorem alookup_adel_self (l : List (String × α)) (k : String) :
    alookup (adel l k) k = none := by
  induction l with
  | nil => rfl
  | cons p t ih =>
    by_cases hp : p.1 = k
    · simpa [adel, hp] using ih
    · simp [adel, hp, alookup, ih]

theorem alookup_adel_ne (l : List (String × α)) {k k' : String} (h : k' ≠ k) :
    alookup (adel l k) k' = alookup l k' := by
  induction l with
  | nil => rfl
  | cons p t ih =>
    by_cases hp : p.1 = k
    · have hp' : p.1 ≠ k' := fun hc => h (hc ▸ hp : k' = k)
      simp [adel, hp, alookup, hp', ih, Ne.symm h]
    · by_cases hp' : p.1 = k'
      · simp [adel, hp, alookup, hp', h]
      · simp [adel, hp, alookup, hp', ih, h]

theorem alookup_aset_self (l : List (String × α)) (k : String) (v : α) :
    alookup (aset l k v) k = some v := by
  simp [aset, alookup]

theorem alookup_aset_ne (l : List (String × α)) {k k' : String} (v : α)
    (h : k' ≠ k) : alookup (aset l k v) k' = alookup l k' := by
  have hk : k ≠ k' := fun hc => h hc.symm
  simp [aset, alookup, hk, alookup_adel_ne l h]

theorem keyCount_adel (l : List (String × α)) (k : String) :
    keyCount (adel l k) k = 0 := by
  induction l with
  | nil => rfl
  | cons p t ih =>
    by_cases hp : p.1 = k
    · simpa [adel, hp] using ih
    · simp [adel, hp, keyCount, List.countP_cons] at ih ⊢
      simpa [hp] using ih

theorem keyCount_aset (l : List (String × α)) (k : String) (v : α) :
    keyCount (aset l k v) k = 1 := by
  have h := keyCount_adel l k
  simp [aset, keyCount, List.countP_cons] at h ⊢
  exact h

theorem cacheSet_channels (s : Store β) (now : Int) (k : String) (v : Option β) :
    (cacheSet s now k v).channels = s.channels := rfl

theorem cacheSet_cacheItems (s : Store β) (now : Int) (k : String) (v : Option β) :
    (cacheSet s now k v).cacheItems =
      aset s.cacheItems k
        { object := v, expiration := if 0 < s.ttl then now + s.ttl else 0 } := rfl

theorem pushUpdate_cacheItems (s : Store β) (k : String) (g : Option β) :
    (pushUpdate s k g).cacheItems = s.cacheItems := by
  cases hc : alookup s.channels k <;> simp [pushUpdate, hc]

theorem pushUpdate_ttl (s : Store β) (k : String) (g : Option β) :
    (pushUpdate s k g).ttl = s.ttl := by
  cases hc : alookup s.channels k <;> simp [pushUpdate, hc]

theorem pushUpdate_of_none (s : Store β) (k : String) (g : Option β)
    (h : alookup s.channels k = none) : pushUpdate s k g = s := by
  simp [pushUpdate, h]

theorem pushUpdate_lookup_self (s : Store β) (k : String) (g : Option β)
    (c : ChannelContainer β) (h : alookup s.channels k = some c) :
    alookup (pushUpdate s k g).channels k =
      some { c with channel := { c.channel with buffer := c.channel.buffer ++ [g] } } := by
  simp [pushUpdate, h, alookup_aset_self]

theorem pushUpdate_lookup_ne (s : Store β) (k : String) (g : Option β)
    {k' : String} (h : k' ≠ k) :
    alookup (pushUpdate s k g).channels k' = alookup s.channels k' := by
  cases hc : alookup s.channels k <;> simp [pushUpdate, hc, alookup_aset_ne _ _ h]

theorem cacheGetRaw_congr {s1 s2 : Store β} (now : Int) (k : String)
    (h : s1.cacheItems = s2.cacheItems) :
    cacheGetRaw s1 now k = cacheGetRaw s2 now k := by
  simp [cacheGetRaw, h]

theorem cacheGetRaw_cacheSet_self (s : Store β) (now : Int) (k : String)
    (v : Option β) : cacheGetRaw (cacheSet s now k v) now k = some v := by
  simp only [cacheGetRaw, cacheSet_cacheItems, alookup_aset_self]
  by_cases h : 0 < s.ttl
  · have hcond : ¬ (0 < now + s.ttl ∧ now + s.ttl < now) := by omega
    simp only [h, if_true]
    rw [if_neg hcond]
  · have hcond : ¬ ((0:Int) < 0 ∧ (0:Int) < now) := by omega
    simp only [h, if_false]
    rw [if_neg hcond]

theorem storePut_cacheItems [BEq β] (s : Store β) (now : Int) (k : String)
    (g : Option β) :
    (storePut s now k g).cacheItems = (cacheSet s now k g).cacheItems := by
  simp only [storePut]
  split
  · rfl
  · exact pushUpdate_cacheItems _ _ _

theorem cacheGetRaw_storePut_self [BEq β] (s : Store β) (now : Int) (k : String)
    (g : Option β) : cacheGetRaw (storePut s now k g) now k = some g := by
  calc cacheGetRaw (storePut s now k g) now k
      = cacheGetRaw (cacheSet s now k g) now k :=
        cacheGetRaw_congr now k (storePut_cacheItems s now k g)
    _ = some g := cacheGetRaw_cacheSet_self s now k g

theorem storePut_channels_of_eq [BEq β] (s : Store β) (now : Int) (k : String)
    (g : Option β) (h : goDeepEqual (cacheGetRaw s now k) g = true) :
    (storePut s now k g).channels = s.channels := by
  simp [storePut, h, cacheSet_channels]

theorem storePut_channels_of_ne [BEq β] (s : Store β) (now : Int) (k : String)
    (g : Option β) (h : goDeepEqual (cacheGetRaw s now k) g = false) :
    (storePut s now k g).channels = (pushUpdate (cacheSet s now k g) k g).channels := by
  simp [storePut, h]

/-! ## Claim theorems -/

/-- C1: `Put` compares the new value to the immediately preceding stored
value and enqueues a change event onto the key's channel container (when
one exists) if and only if the two values differ under deep/structural
equality; in particular two consecutive `Put`s of a structurally
identical value enqueue at most one change event (the second `Put`
leaves every channel untouched). -/
theorem put_change_event_iff_deep_inequality (s : Store GameState) (now : Int)
    (k : String) (g : Option GameState) :
    (∀ c, alookup s.channels k = some c →
      alookup (storePut s now k g).channels k =
        some { c with channel := { c.channel with buffer :=
          (if goDeepEqual (cacheGetRaw s now k) g then c.channel.buffer
           else c.channel.buffer ++ [g]) } }) ∧
    (alookup s.channels k = none →
      (storePut s now k g).channels = s.channels) ∧
    (storePut (storePut s now k g) now k g).channels =
      (storePut s now k g).channels := by
  refine ⟨?_, ?_, ?_⟩
  · intro c h
    cases hEq : goDeepEqual (cacheGetRaw s now k) g with
    | true =>
      rw [storePut_channels_of_eq s now k g hEq]
      simp [h]
    | false =>
      rw [storePut_channels_of_ne s now k g hEq]
      have hc : alookup (cacheSet s now k g).channels k = some c := by
        rw [cacheSet_channels]; exact h
      rw [pushUpdate_lookup_self _ _ _ _ hc]
      simp
  · intro h
    cases hEq : goDeepEqual (cacheGetRaw s now k) g with
    | true => exact storePut_channels_of_eq s now k g hEq
    | false =>
      rw [storePut_channels_of_ne s now k g hEq]
      have hc : alookup (cacheSet s now k g).channels k = none := by
        rw [cacheSet_channels]; exact h
      rw [pushUpdate_of_none _ _ _ hc, cacheSet_channels]
  · have hprev : cacheGetRaw (storePut s now k g) now k = some g :=
      cacheGetRaw_storePut_self s now k g
    have hEq : goDeepEqual (cacheGetRaw (storePut s now k g) now k) g = true := by
      rw [hprev]
      exact deepEqualPtr_gs_rfl g
    exact storePut_channels_of_eq _ now k g hEq

/-- Witness for C1: in a concrete store with one subscriber, the first
`Put` of a fresh value appends exactly one event and the second `Put`
of the identical value appends none. -/
theorem put_change_event_iff_deep_inequality_witness :
    alookup (storePut (storeGetChannel sampleStore 0 "t") 0 "t"
        (some sampleGameState)).channels "t" =
      some { channel := { capacity := 10, buffer := [none, some sampleGameState]
                          closed := false }
             clients := 1 } ∧
    (storePut (storePut (storeGetChannel sampleStore 0 "t") 0 "t"
        (some sampleGameState)) 0 "t" (some sampleGameState)).channels =
      (storePut (storeGetChannel sampleStore 0 "t") 0 "t"
        (some sampleGameState)).channels := by
  constructor
  · have h := (put_change_event_iff_deep_inequality
      (storeGetChannel sampleStore 0 "t") 0 "t" (some sampleGameState)).1
      { channel := { capacity := 10, buffer := [none], closed := false }
        clients := 1 } (by rfl)
    rw [h]
    rfl
  · exact (put_change_event_iff_deep_inequality
      (storeGetChannel sampleStore 0 "t") 0 "t" (some sampleGameState)).2.2

theorem adel_adel (l : List (String × α)) (k : String) :
    adel (adel l k) k = adel l k := by
  induction l with
  | nil => rfl
  | cons p t ih =>
    by_cases hp : p.1 = k
    · simp [adel, hp, ih]
    · simp [adel, hp, ih]

theorem aset_aset (l : List (String × α)) (k : String) (v v' : α) :
    aset (aset l k v) k v' = aset l k v' := by
  simp [aset, adel, adel_adel]

theorem storeGetChannel_of_some (s : Store β) (now : Int) (k : String)
    (c : ChannelContainer β) (h : alookup s.channels k = some c) :
    storeGetChannel s now k =
      { s with channels := aset s.channels k { c with clients := c.clients + 1 } } := by
  simp [storeGetChannel, h]

theorem storeGetChannel_of_none (s : Store β) (now : Int) (k : String)
    (h : alookup s.channels k = none) :
    storeGetChannel s now k =
      { s with channels :=
                 aset s.channels k
                   { channel := { capacity := channelBufferSize
                                  buffer := [(storeGet s now k).1]
                                  closed := false }
                     clients := 1 } } := by
  simp only [storeGetChannel, h]
  rw [alookup_aset_self]
  simp [aset_aset]

theorem releaseChannel_of_none (s : Store β) (k : String)
    (h : alookup s.channels k = none) : storeReleaseChannel s k = (s, none) := by
  simp [storeReleaseChannel, h]

theorem releaseChannel_of_last (s : Store β) (k : String)
    (c : ChannelContainer β) (h : alookup s.channels k = some c)
    (hc : c.clients - 1 < 1) :
    storeReleaseChannel s k =
      ({ s with channels := adel s.channels k },
       some { c.channel with closed := true }) := by
  simp [storeReleaseChannel, h, hc]

theorem releaseChannel_of_dec (s : Store β) (k : String)
    (c : ChannelContainer β) (h : alookup s.channels k = some c)
    (hc : ¬ c.clients - 1 < 1) :
    storeReleaseChannel s k =
      ({ s with channels := aset s.channels k { c with clients := c.clients - 1 } },
       none) := by
  simp [storeReleaseChannel, h, hc]

/-- C2: when no container exists for a key, `GetChannel` creates one
whose bounded queue has capacity `channelBufferSize = 10`, whose first
enqueued event is the currently stored value for the key (the nil
sentinel when no entry is stored), and whose subscriber count is 1. -/
theorem subscribe_creates_container_with_current_state (s : Store GameState)
    (now : Int) (k : String) (h : alookup s.channels k = none) :
    alookup (storeGetChannel s now k).channels k =
      some { channel := { capacity := channelBufferSize
                          buffer := [(storeGet s now k).1]
                          closed := false }
             clients := 1 } ∧
    channelBufferSize = 10 ∧
    (alookup s.cacheItems k = none → (storeGet s now k).1 = none) := by
  refine ⟨?_, rfl, ?_⟩
  · rw [storeGetChannel_of_none s now k h]
    exact alookup_aset_self _ _ _
  · intro hm
    simp [storeGet, cacheGetRaw, hm]

/-- Witness for C2: subscribing on a fresh store yields a container of
capacity 10 holding the single nil (absent) event with one client. -/
theorem subscribe_creates_container_with_current_state_witness :
    alookup (storeGetChannel sampleStore 0 "t").channels "t" =
      some { channel := { capacity := 10, buffer := [none], closed := false }
             clients := 1 } :=
  (subscribe_creates_container_with_current_state sampleStore 0 "t" (by rfl)).1

/-- C6: `Get` immediately after `Put(key, value)` returns
`(value, true)`, and the write replaces any previous entry wholesale:
the stored object under the key is exactly the new value and exactly one
entry exists for the key. -/
theorem put_then_get_returns_value (s : Store GameState) (now : Int)
    (k : String) (g : Option GameState) :
    storeGet (storePut s now k g) now k = (g, true) ∧
    (alookup (storePut s now k g).cacheItems k).map Item.object = some g ∧
    keyCount (storePut s now k g).cacheItems k = 1 := by
  refine ⟨?_, ?_, ?_⟩
  · simp [storeGet, cacheGetRaw_storePut_self]
  · rw [storePut_cacheItems, cacheSet_cacheItems, alookup_aset_self]
    rfl
  · rw [storePut_cacheItems, cacheSet_cacheItems]
    exact keyCount_aset _ _ _

/-- Witness for C6 at a concrete store and value. -/
theorem put_then_get_returns_value_witness :
    storeGet (storePut sampleStore 0 "k" (some sampleGameState2)) 0 "k" =
      (some sampleGameState2, true) :=
  (put_then_get_returns_value sampleStore 0 "k" (some sampleGameState2)).1

/-- C8: `Get` is total and never errors: on a never-written key (fresh
store), on an absent key, and on an expired entry it returns the
not-found result `(nil, false)`. -/
theorem get_total_not_found :
    (∀ (ttl now : Int) (k : String),
        storeGet (newStore GameState ttl) now k = (none, false)) ∧
    (∀ (s : Store GameState) (now : Int) (k : String),
        alookup s.cacheItems k = none → storeGet s now k = (none, false)) ∧
    (∀ (s : Store GameState) (now : Int) (k : String) (it : Item GameState),
        alookup s.cacheItems k = some it → 0 < it.expiration →
        it.expiration < now → storeGet s now k = (none, false)) := by
  refine ⟨?_, ?_, ?_⟩
  · intro ttl now k
    rfl
  · intro s now k h
    simp [storeGet, cacheGetRaw, h]
  · intro s now k it h h1 h2
    simp [storeGet, cacheGetRaw, h, h1, h2]

/-- Witness for C8: a never-written key on a fresh store is not found. -/
theorem get_total_not_found_witness :
    storeGet (newStore GameState 100) 0 "nobody" = (none, false) :=
  get_total_not_found.1 100 0 "nobody"

/-- C10: `Close` leaves the entry store's contents unchanged — it only
clears the channel registry — so `Get` behaves identically before and
after `Close` on every key and at every time. -/
theorem close_preserves_cache_contents (s : Store GameState) (now : Int)
    (k : String) :
    (storeClose s).1.cacheItems = s.cacheItems ∧
    storeGet (storeClose s).1 now k = storeGet s now k :=
  ⟨rfl, rfl⟩

theorem goodStore_congr {s1 s2 : Store β} (h : s1.channels = s2.channels)
    (hg : goodStore s1) : goodStore s2 := by
  intro k c hc
  exact hg k c (by rw [h]; exact hc)

theorem goodStore_pushUpdate (s : Store β) (k : String) (g : Option β)
    (h : goodStore s) : goodStore (pushUpdate s k g) := by
  intro k' c' h'
  by_cases hk : k' = k
  · subst hk
    cases hc : alookup s.channels k' with
    | none =>
      rw [pushUpdate_of_none _ _ _ hc] at h'
      exact h k' c' h'
    | some c =>
      rw [pushUpdate_lookup_self _ _ _ _ hc] at h'
      injection h' with h2
      subst h2
      simpa using h k' c hc
  · rw [pushUpdate_lookup_ne _ _ _ hk] at h'
    exact h k' c' h'

theorem goodStore_storePut [BEq β] (s : Store β) (now : Int) (k : String)
    (g : Option β) (h : goodStore s) : goodStore (storePut s now k g) := by
  cases hEq : goDeepEqual (cacheGetRaw s now k) g with
  | true => exact goodStore_congr (storePut_channels_of_eq s now k g hEq).symm h
  | false =>
    refine goodStore_congr (storePut_channels_of_ne s now k g hEq).symm ?_
    exact goodStore_pushUpdate (cacheSet s now k g) k g h

theorem goodStore_storeRemove (s : Store β) (k : String) (h : goodStore s) :
    goodStore (storeRemove s k) := by
  unfold storeRemove
  split
  · exact goodStore_pushUpdate _ _ _ h
  · exact h

theorem goodStore_foldl_pushUpdate (l : List (String × Item β)) (s : Store β)
    (h : goodStore s) :
    goodStore (l.foldl (fun acc p => pushUpdate acc p.1 none) s) := by
  induction l generalizing s with
  | nil => exact h
  | cons p t ih => exact ih _ (goodStore_pushUpdate _ _ _ h)

theorem goodStore_deleteExpired (s : Store β) (now : Int) (h : goodStore s) :
    goodStore (deleteExpired s now) := by
  unfold deleteExpired
  exact goodStore_foldl_pushUpdate _ _ h

theorem goodStore_getChannel (s : Store β) (now : Int) (k : String)
    (h : goodStore s) : goodStore (storeGetChannel s now k) := by
  cases hc : alookup s.channels k with
  | some c =>
    rw [storeGetChannel_of_some s now k c hc]
    intro k' c' h'
    by_cases hk : k' = k
    · subst hk
      rw [show ({ s with channels := aset s.channels k' { c with clients := c.clients + 1 } } : Store β).channels = aset s.channels k' { c with clients := c.clients + 1 } from rfl] at h'
      rw [alookup_aset_self] at h'
      injection h' with h2
      subst h2
      have hcc := h k' c hc
      show 0 < c.clients + 1
      omega
    · rw [alookup_aset_ne _ _ hk] at h'
      exact h k' c' h'
  | none =>
    rw [storeGetChannel_of_none s now k hc]
    intro k' c' h'
    by_cases hk : k' = k
    · subst hk
      rw [alookup_aset_self] at h'
      injection h' with h2
      subst h2
      show (0:Int) < 1
      norm_num
    · rw [alookup_aset_ne _ _ hk] at h'
      exact h k' c' h'

theorem goodStore_releaseChannel (s : Store β) (k : String) (h : goodStore s) :
    goodStore (storeReleaseChannel s k).1 := by
  cases hc : alookup s.channels k with
  | none =>
    rw [releaseChannel_of_none s k hc]
    exact h
  | some c =>
    by_cases hlast : c.clients - 1 < 1
    · rw [releaseChannel_of_last s k c hc hlast]
      intro k' c' h'
      by_cases hk : k' = k
      · subst hk
        rw [alookup_adel_self] at h'
        simp at h'
      · rw [alookup_adel_ne _ hk] at h'
        exact h k' c' h'
    · rw [releaseChannel_of_dec s k c hc hlast]
      intro k' c' h'
      by_cases hk : k' = k
      · subst hk
        rw [alookup_aset_self] at h'
        injection h' with h2
        subst h2
        show 0 < c.clients - 1
        omega
      · rw [alookup_aset_ne _ _ hk] at h'
        exact h k' c' h'

theorem goodStore_newStore (ttl : Int) : goodStore (newStore β ttl) := by
  intro k c h
  simp [newStore, alookup] at h

theorem goodStore_storeClose (s : Store β) (_h : goodStore s) :
    goodStore (storeClose s).1 := by
  intro k c hc
  simp [storeClose, alookup] at hc

/-- C3: a channel container exists only with a positive subscriber
count: the invariant holds for a fresh store and is preserved by every
operation (the create/increment and decrement/destroy transitions are
atomic inside `GetChannel`/`ReleaseChannel`); `ReleaseChannel`
decrements the count and, exactly when it reaches zero, removes the
container from the registry and closes its channel — a closed, drained
channel delivers the end-of-stream result `(nil, false)`. -/
theorem container_iff_positive_subscribers (s : Store GameState) (now : Int)
    (k : String) (g : Option GameState) (ttl : Int) :
    goodStore (newStore GameState ttl) ∧
    (goodStore s →
      goodStore (storeGetChannel s now k) ∧
      goodStore (storeReleaseChannel s k).1 ∧
      goodStore (storePut s now k g) ∧
      goodStore (storeRemove s k) ∧
      goodStore (deleteExpired s now) ∧
      goodStore (storeClose s).1) ∧
    (∀ c, alookup s.channels k = some c →
      ((c.clients = 1 →
          alookup (storeReleaseChannel s k).1.channels k = none ∧
          (storeReleaseChannel s k).2 = some { c.channel with closed := true }) ∧
       (1 < c.clients →
          alookup (storeReleaseChannel s k).1.channels k =
            some { c with clients := c.clients - 1 } ∧
          (storeReleaseChannel s k).2 = none))) ∧
    (∀ ch : Channel GameState, ch.closed = true → ch.buffer = [] →
      Channel.recv ch = some ((none, false), ch)) := by
  refine ⟨goodStore_newStore ttl, ?_, ?_, ?_⟩
  · intro h
    exact ⟨goodStore_getChannel s now k h, goodStore_releaseChannel s k h,
      goodStore_storePut s now k g h, goodStore_storeRemove s k h,
      goodStore_deleteExpired s now h, goodStore_storeClose s h⟩
  · intro c hc
    constructor
    · intro h1
      have hlast : c.clients - 1 < 1 := by omega
      rw [releaseChannel_of_last s k c hc hlast]
      exact ⟨alookup_adel_self _ _, rfl⟩
    · intro h2
      have hdec : ¬ c.clients - 1 < 1 := by omega
      rw [releaseChannel_of_dec s k c hc hdec]
      exact ⟨alookup_aset_self _ _ _, rfl⟩
  · intro ch h1 h2
    simp [Channel.recv, h1, h2]

/-- Witness for C3: with one subscriber, releasing removes the
container and returns the closed channel. -/
theorem container_iff_positive_subscribers_witness :
    alookup (storeReleaseChannel (storeGetChannel sampleStore 0 "t") "t").1.channels "t" =
      none ∧
    (storeReleaseChannel (storeGetChannel sampleStore 0 "t") "t").2 =
      some { capacity := 10, buffer := [none], closed := true } :=
  ((container_iff_positive_subscribers (storeGetChannel sampleStore 0 "t") 0 "t"
      none 5).2.2.1
    { channel := { capacity := 10, buffer := [none], closed := false }
      clients := 1 }
    (by rfl)).1 (by rfl)

theorem storeRemove_of_some (s : Store β) (k : String) (it : Item β)
    (h : alookup s.cacheItems k = some it) :
    storeRemove s k =
      pushUpdate { s with cacheItems := adel s.cacheItems k } k none := by
  simp [storeRemove, h]

theorem storeRemove_of_none (s : Store β) (k : String)
    (h : alookup s.cacheItems k = none) :
    storeRemove s k = { s with cacheItems := adel s.cacheItems k } := by
  simp [storeRemove, h]

/-- C4: removing a present entry (explicit `Remove`) enqueues the nil
absence sentinel — not the removed value — onto the key's channel when
a container exists, deletes the entry, and is exactly the notification
path of a timeout eviction: on a store whose (sole) cache entry for the
key is expired, the janitor's sweep produces the identical store. -/
theorem remove_and_eviction_notify_absence (s : Store GameState) (now : Int)
    (k : String) :
    (∀ it c, alookup s.cacheItems k = some it → alookup s.channels k = some c →
      alookup (storeRemove s k).channels k =
        some { c with channel := { c.channel with
                 buffer := c.channel.buffer ++ [(none : Option GameState)] } } ∧
      alookup (storeRemove s k).cacheItems k = none) ∧
    (∀ it, s.cacheItems = [(k, it)] → itemExpired it now = true →
      deleteExpired s now = storeRemove s k) := by
  constructor
  · intro it c hit hc
    rw [storeRemove_of_some s k it hit]
    constructor
    · exact pushUpdate_lookup_self _ _ _ _ hc
    · rw [pushUpdate_cacheItems]
      exact alookup_adel_self _ _
  · intro it h hexp
    have hlook : alookup s.cacheItems k = some it := by
      rw [h]; simp [alookup]
    rw [storeRemove_of_some s k it hlook]
    unfold deleteExpired
    rw [h]
    simp [List.filter, hexp, adel]

/-- Witness for C4: removing a present entry with one subscriber
appends the nil event and empties the entry. -/
theorem remove_and_eviction_notify_absence_witness :
    alookup (storeRemove (storePut (storeGetChannel sampleStore 0 "t") 0 "t"
        (some sampleGameState)) "t").channels "t" =
      some { channel := { capacity := 10
                          buffer := [none, some sampleGameState, none]
                          closed := false }
             clients := 1 } ∧
    alookup (storeRemove (storePut (storeGetChannel sampleStore 0 "t") 0 "t"
        (some sampleGameState)) "t").cacheItems "t" = none := by
  have h := (remove_and_eviction_notify_absence
      (storePut (storeGetChannel sampleStore 0 "t") 0 "t" (some sampleGameState))
      0 "t").1
    { object := some sampleGameState, expiration := 100 }
    { channel := { capacity := 10, buffer := [none, some sampleGameState]
                   closed := false }
      clients := 1 }
    (by rfl) (by rfl)
  exact ⟨by rw [h.1]; rfl, h.2⟩

theorem foldl_pushUpdate_channels_nil (l : List (String × Item β)) (s : Store β)
    (h : s.channels = []) :
    (l.foldl (fun acc p => pushUpdate acc p.1 none) s).channels = [] := by
  induction l generalizing s with
  | nil => exact h
  | cons p t ih =>
    have hstep : pushUpdate s p.1 none = s :=
      pushUpdate_of_none _ _ _ (by rw [h]; rfl)
    simpa [hstep] using ih s h

/-- C5: `Close` empties the channel registry and closes every channel
regardless of its client count, so every outstanding subscriber queue
reaches end-of-stream once drained; afterwards `pushUpdate` is the
identity on the closed store and no `Put`, `Remove` or timeout eviction
can deliver an event (the registry stays empty). -/
theorem close_ends_all_streams (s : Store GameState) (now : Int) (k : String)
    (g : Option GameState) :
    (storeClose s).1.channels = [] ∧
    (storeClose s).2 =
      s.channels.map (fun p => (p.1, { p.2.channel with closed := true })) ∧
    (∀ pc : String × Channel GameState, pc ∈ (storeClose s).2 →
      pc.2.closed = true ∧
      Channel.recv { pc.2 with buffer := ([] : List (Option GameState)) } =
        some ((none, false), { pc.2 with buffer := ([] : List (Option GameState)) })) ∧
    pushUpdate (storeClose s).1 k g = (storeClose s).1 ∧
    (storePut (storeClose s).1 now k g).channels = [] ∧
    (storeRemove (storeClose s).1 k).channels = [] ∧
    (deleteExpired (storeClose s).1 now).channels = [] := by
  refine ⟨rfl, rfl, ?_, ?_, ?_, ?_, ?_⟩
  · intro pc hpc
    simp only [storeClose, List.mem_map] at hpc
    obtain ⟨q, _, rfl⟩ := hpc
    exact ⟨rfl, rfl⟩
  · exact pushUpdate_of_none _ _ _ (by rfl)
  · cases hEq : goDeepEqual (cacheGetRaw (storeClose s).1 now k) g with
    | true =>
      rw [storePut_channels_of_eq _ now k g hEq]
      rfl
    | false =>
      rw [storePut_channels_of_ne _ now k g hEq,
        pushUpdate_of_none _ _ _ (by rfl)]
      rfl
  · cases hit : alookup (storeClose s).1.cacheItems k with
    | some it =>
      rw [storeRemove_of_some _ k it hit, pushUpdate_of_none _ _ _ (by rfl)]
      rfl
    | none =>
      rw [storeRemove_of_none _ k hit]
      rfl
  · exact foldl_pushUpdate_channels_nil _ _ rfl

/-- Witness for C5 at a concrete store with one open subscription. -/
theorem close_ends_all_streams_witness :
    (storeClose (storeGetChannel sampleStore 0 "t")).1.channels = [] ∧
    (storeClose (storeGetChannel sampleStore 0 "t")).2 =
      [("t", { capacity := 10, buffer := [none], closed := true })] :=
  ⟨(close_ends_all_streams (storeGetChannel sampleStore 0 "t") 0 "t" none).1,
   by
    rw [(close_ends_all_streams (storeGetChannel sampleStore 0 "t") 0 "t" none).2.1]
    rfl⟩

/-- C7: the store is constructed with a janitor sweep interval of ten
times the configured ttl, and an entry that is never refreshed after its
`Put` at time `t0` is still found by `Get` up to and including
`t0 + ttl`, and is reported not-found strictly after `t0 + ttl` — in
particular no earlier than `ttl` and no later than `ttl × 10` after the
`Put` (times are UnixNano instants, hence nonnegative). -/
theorem ttl_expiry_and_sweep_interval (s : Store GameState) (ttl t0 t : Int)
    (k : String) (g : Option GameState) (h1 : 0 < s.ttl) (h2 : 0 ≤ t0) :
    (newStore GameState ttl).cleanupInterval = ttl * 10 ∧
    (t ≤ t0 + s.ttl → storeGet (storePut s t0 k g) t k = (g, true)) ∧
    (t0 + s.ttl < t → storeGet (storePut s t0 k g) t k = (none, false)) ∧
    (t0 + s.ttl * 10 ≤ t → storeGet (storePut s t0 k g) t k = (none, false)) := by
  have hitems : alookup (storePut s t0 k g).cacheItems k =
      some { object := g, expiration := t0 + s.ttl } := by
    rw [storePut_cacheItems, cacheSet_cacheItems, alookup_aset_self]
    simp [h1]
  refine ⟨rfl, ?_, ?_, ?_⟩
  · intro ht
    have hcond : ¬ (0 < t0 + s.ttl ∧ t0 + s.ttl < t) := by omega
    simp [storeGet, cacheGetRaw, hitems, hcond]
  · intro ht
    have hcond : 0 < t0 + s.ttl ∧ t0 + s.ttl < t := by omega
    simp [storeGet, cacheGetRaw, hitems, hcond]
  · intro ht
    have hcond : 0 < t0 + s.ttl ∧ t0 + s.ttl < t := by omega
    simp [storeGet, cacheGetRaw, hitems, hcond]

/-- Witness for C7: with ttl 100, an entry put at time 0 is found at
time 100 and gone at time 1000 = ttl × 10. -/
theorem ttl_expiry_and_sweep_interval_witness :
    storeGet (storePut sampleStore 0 "k" (some sampleGameState)) 100 "k" =
      (some sampleGameState, true) ∧
    storeGet (storePut sampleStore 0 "k" (some sampleGameState)) 1000 "k" =
      (none, false) :=
  ⟨(ttl_expiry_and_sweep_interval sampleStore 100 0 100 "k" (some sampleGameState)
      (by decide) (by decide)).2.1 (by decide),
   (ttl_expiry_and_sweep_interval sampleStore 100 0 1000 "k" (some sampleGameState)
      (by decide) (by decide)).2.2.2 (by decide)⟩

theorem smPut_cacheItems (s : Store FullPlayerInfo) (now : Int)
    (sInfo : ServerInfo) (pInfo : PlayerInfo) :
    (smPut s now sInfo pInfo).cacheItems =
      (cacheSet s now pInfo.authKey (some (modelNew sInfo pInfo))).cacheItems := by
  cases hEq : goDeepEqual (cacheGetRaw s now pInfo.authKey)
      (some (modelNew sInfo pInfo)) with
  | true => simp [smPut, hEq]
  | false =>
    simp only [smPut, hEq, Bool.false_eq_true, if_false]
    exact pushUpdate_cacheItems _ _ _

/-- C9: the merged full-player record is a pure function of the server
snapshot and the player snapshot — every field of `model.New`'s result
equals the corresponding field of one of the two inputs — and
`smstore.Put` stores exactly this merged record under the player's auth
key, leaving every other key unchanged. -/
theorem merge_is_pure_and_stored_under_auth_key (sInfo : ServerInfo)
    (pInfo : PlayerInfo) (s : Store FullPlayerInfo) (now : Int) :
    (modelNew sInfo pInfo).timeStamp = sInfo.timeStamp ∧
    (modelNew sInfo pInfo).authKey = pInfo.authKey ∧
    (modelNew sInfo pInfo).timeoutsCTPrev = sInfo.timeoutsCTPrev ∧
    (modelNew sInfo pInfo).timeoutsTPrev = sInfo.timeoutsTPrev ∧
    (modelNew sInfo pInfo).timeoutsCT = sInfo.timeoutsCT ∧
    (modelNew sInfo pInfo).timeoutsT = sInfo.timeoutsT ∧
    (modelNew sInfo pInfo).serverName = sInfo.serverName ∧
    (modelNew sInfo pInfo).mapName = sInfo.mapName ∧
    (modelNew sInfo pInfo).serverGlobal = sInfo.glob ∧
    (modelNew sInfo pInfo).steamId = pInfo.steamId ∧
    (modelNew sInfo pInfo).clan = pInfo.clan ∧
    (modelNew sInfo pInfo).name = pInfo.name ∧
    (modelNew sInfo pInfo).timeInServer = pInfo.timeInServer ∧
    (modelNew sInfo pInfo).kzData = pInfo.kzData ∧
    (alookup (smPut s now sInfo pInfo).cacheItems pInfo.authKey).map Item.object =
      some (some (modelNew sInfo pInfo)) ∧
    (∀ k', k' ≠ pInfo.authKey →
      alookup (smPut s now sInfo pInfo).cacheItems k' =
        alookup s.cacheItems k') := by
  refine ⟨rfl, rfl, rfl, rfl, rfl, rfl, rfl, rfl, rfl, rfl, rfl, rfl, rfl, rfl,
    ?_, ?_⟩
  · rw [smPut_cacheItems, cacheSet_cacheItems, alookup_aset_self]
    rfl
  · intro k' hk
    rw [smPut_cacheItems, cacheSet_cacheItems, alookup_aset_ne _ _ hk]

/-- Witness for C9 on concrete snapshots in a fresh smstore. -/
theorem merge_is_pure_and_stored_under_auth_key_witness :
    (alookup (smPut sampleSmStore 0 sampleServerInfo samplePlayerInfo).cacheItems
        samplePlayerInfo.authKey).map Item.object =
      some (some (modelNew sampleServerInfo samplePlayerInfo)) :=
  (merge_is_pure_and_stored_under_auth_key sampleServerInfo samplePlayerInfo
    sampleSmStore 0).2.2.2.2.2.2.2.2.2.2.2.2.2.2.1
